import Mathlib

namespace Bore

/-!
# Verification of the `bore` tunnel client and authenticators

A shallow embedding of `src/auth.rs`, `src/client.rs` and `src/main.rs` of the
`nativebridge-bore-tunnel` repository, together with theorems settling the
specification claims.  Machine integers are modelled as `Nat` with explicit
`% 2^32` where 32-bit overflow matters; fallible Rust code returns
`Except`/`Option`; the I/O behaviour of handshakes is modelled as explicit
traces of sent messages driven by oracles for the received ones.

The `Delimited` codec (`shared.rs`) is not part of the given sources; its
observable behaviour (`recv_timeout` returning a message, `None` at EOF, or
failing with a timeout error) is modelled from the specification and marked
as such.  The cryptographic primitives (SHA-256, HMAC, hex) used by
`Authenticator` are external crates with standard, fully-determined
behaviour; they are embedded concretely below.
-/

/-! ## Bytes, hex encoding (the `hex` crate) -/

/-- Truncate to a 32-bit word. -/
def w32 (x : Nat) : Nat := x % 4294967296

/-- Rotate a 32-bit word right by `n` bits. -/
def rotr (n x : Nat) : Nat := w32 ((x >>> n) ||| (x <<< (32 - n)))

/-- Lowercase hex digit for a nibble, as produced by `hex::encode`. -/
def hexDigitChar (v : Nat) : Char :=
  if v < 10 then Char.ofNat (48 + v) else Char.ofNat (87 + v)

/-- Value of a hex digit as accepted by `hex::decode`: digits, lowercase
and uppercase letters are all valid. -/
def hexDigitVal (ch : Char) : Option Nat :=
  let n := ch.toNat
  if 48 ≤ n ∧ n ≤ 57 then some (n - 48)
  else if 97 ≤ n ∧ n ≤ 102 then some (n - 87)
  else if 65 ≤ n ∧ n ≤ 70 then some (n - 55)
  else none

/-- `hex::encode` on a byte list (each byte rendered as two lowercase digits). -/
def hexEncodeList (bs : List Nat) : List Char :=
  bs.flatMap fun b => [hexDigitChar (b / 16 % 16), hexDigitChar (b % 16)]

/-- `hex::encode` producing a `String`. -/
def hexEncode (bs : List Nat) : String := ⟨hexEncodeList bs⟩

/-- `hex::decode`: fails on odd length or any non-hex character. -/
def hexDecode : List Char → Option (List Nat)
  | [] => some []
  | [_] => none
  | a :: b :: rest =>
    match hexDigitVal a, hexDigitVal b, hexDecode rest with
    | some va, some vb, some bs => some ((16 * va + vb) :: bs)
    | _, _, _ => none

/-! ## SHA-256 (the `sha2` crate, FIPS 180-4) -/

/-- The 64 SHA-256 round constants. -/
def shaK : List Nat :=
  [1116352408, 1899447441, 3049323471, 3921009573, 961987163,
   1508970993, 2453635748, 2870763221, 3624381080, 310598401,
   607225278, 1426881987, 1925078388, 2162078206, 2614888103,
   3248222580, 3835390401, 4022224774, 264347078, 604807628,
   770255983, 1249150122, 1555081692, 1996064986, 2554220882,
   2821834349, 2952996808, 3210313671, 3336571891, 3584528711,
   113926993, 338241895, 666307205, 773529912, 1294757372,
   1396182291, 1695183700, 1986661051, 2177026350, 2456956037,
   2730485921, 2820302411, 3259730800, 3345764771, 3516065817,
   3600352804, 4094571909, 275423344, 430227734, 506948616,
   659060556, 883997877, 958139571, 1322822218, 1537002063,
   1747873779, 1955562222, 2024104815, 2227730452, 2361852424,
   2428436474, 2756734187, 3204031479, 3329325298]

/-- The SHA-256 initial hash state. -/
def shaH0 : List Nat :=
  [1779033703, 3144134277, 1013904242, 2773480762,
   1359893119, 2600822924, 528734635, 1541459225]

/-- Extend a 16-word block into the 64-word message schedule. -/
def schedule (block : List Nat) : List Nat :=
  (List.range 64).foldl
    (fun ws i =>
      if i < 16 then ws ++ [block.getD i 0]
      else
        let x15 := ws.getD (i - 15) 0
        let x2 := ws.getD (i - 2) 0
        let s0 := (rotr 7 x15) ^^^ (rotr 18 x15) ^^^ (x15 >>> 3)
        let s1 := (rotr 17 x2) ^^^ (rotr 19 x2) ^^^ (x2 >>> 10)
        ws ++ [w32 (ws.getD (i - 16) 0 + s0 + ws.getD (i - 7) 0 + s1)])
    []

/-- One SHA-256 compression round over the eight-word state. -/
def round (ws : List Nat) (st : List Nat) (i : Nat) : List Nat :=
  match st with
  | [a, b, c, d, e, f, g, h] =>
    let s1 := (rotr 6 e) ^^^ (rotr 11 e) ^^^ (rotr 25 e)
    let ch := (e &&& f) ^^^ ((e ^^^ 4294967295) &&& g)
    let t1 := w32 (h + s1 + ch + shaK.getD i 0 + ws.getD i 0)
    let s0 := (rotr 2 a) ^^^ (rotr 13 a) ^^^ (rotr 22 a)
    let mj := (a &&& b) ^^^ (a &&& c) ^^^ (b &&& c)
    let t2 := w32 (s0 + mj)
    [w32 (t1 + t2), a, b, c, w32 (d + t1), e, f, g]
  | st => st

/-- SHA-256 compression of one 16-word block into the state. -/
def compress (h : List Nat) (block : List Nat) : List Nat :=
  let ws := schedule block
  let fin := (List.range 64).foldl (round ws) h
  List.zipWith (fun x y => w32 (x + y)) h fin

/-- Big-endian 8-byte encoding of the message bit length. -/
def lenBytes64 (n : Nat) : List Nat :=
  [n / 72057594037927936 % 256, n / 281474976710656 % 256,
   n / 1099511627776 % 256, n / 4294967296 % 256,
   n / 16777216 % 256, n / 65536 % 256, n / 256 % 256, n % 256]

/-- SHA-256 padding: append `0x80`, zeros up to 56 mod 64, then the bit length. -/
def padMessage (msg : List Nat) : List Nat :=
  let z := (119 - msg.length % 64) % 64
  msg ++ 0x80 :: List.replicate z 0 ++ lenBytes64 (8 * msg.length)

/-- Pack bytes into big-endian 32-bit words. -/
def toWords : List Nat → List Nat
  | a :: b :: c :: d :: rest => (a * 16777216 + b * 65536 + c * 256 + d) :: toWords rest
  | _ => []

/-- Split a word list into 16-word blocks (padding makes it a multiple of 16). -/
def chunkWords : List Nat → List (List Nat)
  | [] => []
  | w1 :: w2 :: w3 :: w4 :: w5 :: w6 :: w7 :: w8 ::
    w9 :: w10 :: w11 :: w12 :: w13 :: w14 :: w15 :: w16 :: rest =>
    [w1, w2, w3, w4, w5, w6, w7, w8, w9, w10, w11, w12, w13, w14, w15, w16]
      :: chunkWords rest
  | l => [l]

/-- Unpack 32-bit words into big-endian bytes. -/
def wordsToBytes (ws : List Nat) : List Nat :=
  ws.flatMap fun w => [w / 16777216 % 256, w / 65536 % 256, w / 256 % 256, w % 256]

/-- SHA-256 of a byte list, as a 32-byte list. -/
def sha256 (msg : List Nat) : List Nat :=
  wordsToBytes ((chunkWords (toWords (padMessage msg))).foldl compress shaH0)

/-! ## HMAC-SHA-256 (the `hmac` crate) -/

/-- HMAC-SHA-256 with block size 64. Keys longer than the block are hashed
first; shorter keys are zero-padded. -/
def hmacSha256 (key msg : List Nat) : List Nat :=
  let k := if 64 < key.length then sha256 key else key
  let kp := k ++ List.replicate (64 - k.length) 0
  let inner := sha256 (kp.map (fun b => b ^^^ 0x36) ++ msg)
  sha256 (kp.map (fun b => b ^^^ 0x5c) ++ inner)

/-! ## UTF-8 (Rust strings are UTF-8; `chain_update(secret)` hashes the bytes) -/

/-- Standard UTF-8 encoding of one scalar value. -/
def utf8EncodeChar (c : Char) : List Nat :=
  let n := c.toNat
  if n < 128 then [n]
  else if n < 2048 then [192 + n / 64, 128 + n % 64]
  else if n < 65536 then [224 + n / 4096, 128 + n / 64 % 64, 128 + n % 64]
  else [240 + n / 262144, 128 + n / 4096 % 64, 128 + n / 64 % 64, 128 + n % 64]

/-- UTF-8 bytes of a string. -/
def utf8Bytes (s : String) : List Nat := s.data.flatMap utf8EncodeChar

/-! ## `auth.rs`: `Authenticator` -/

/-- A 16-byte UUID (`uuid::Uuid`), as its byte list. -/
structure Uuid where
  bytes : List Nat
deriving DecidableEq, Repr

/-- `Authenticator`: wrapper around `Hmac<Sha256>` keyed by the hashed secret. -/
structure Authenticator where
  key : List Nat
deriving DecidableEq, Repr

/-- `Authenticator::new`: the HMAC key is the SHA-256 hash of the secret. -/
def Authenticator.new (secret : String) : Authenticator :=
  ⟨sha256 (utf8Bytes secret)⟩

/-- `Authenticator::answer`: hex-encoded HMAC of the challenge UUID's bytes. -/
def Authenticator.answer (a : Authenticator) (challenge : Uuid) : String :=
  hexEncode (hmacSha256 a.key challenge.bytes)

/-- `Authenticator::validate`: hex-decode the tag and verify it against the
HMAC of the challenge; invalid hex (or odd length) yields `false`.
`Mac::verify_slice` is constant-time equality of the full MAC. -/
def Authenticator.validate (a : Authenticator) (challenge : Uuid) (tag : String) : Bool :=
  match hexDecode tag.data with
  | some bs => bs == hmacSha256 a.key challenge.bytes
  | none => false

/-! ## `shared.rs` message types and codec results

The control-channel message enums are declared in the (absent) `shared.rs`
and fully described by the specification's data model. -/

/-- Server-to-client control message. -/
inductive ServerMessage
  | Hello (port : Nat)
  | Challenge (token : Uuid)
  | Connection (id : Uuid)
  | Heartbeat
  | Error (text : String)
deriving DecidableEq, Repr

/-- Client-to-server control message. -/
inductive ClientMessage
  | Authenticate (tag : String)
  | Hello (port : Nat)
  | Accept (id : Uuid)
deriving DecidableEq, Repr

/-- An error carried by a `Result`: either a `bail!`/`ensure!` message, or a
propagated timeout error from a timed read.

Modelled from the spec: `Delimited::recv_timeout` (in the missing
`shared.rs`) "fails with a timeout error" when the ~3 s deadline is
exceeded; that error reports the exceeded read deadline and is distinct from
any message produced by the handshake itself. -/
inductive Err
  | message (s : String)
  | timedOut
deriving DecidableEq, Repr

/-- Contiguous-sublist test. -/
def isSubList (sub hay : List Char) : Bool :=
  match hay with
  | [] => sub.isEmpty
  | _ :: t => sub.isPrefixOf hay || isSubList sub t

/-- Substring test on strings (used to state "an error containing ..."). -/
def strContainsText (hay sub : String) : Bool :=
  isSubList sub.data hay.data

/-- Whether an error's text contains the given fragment.

Modelled from the spec: the timeout error of `recv_timeout` reports the
exceeded read deadline ("fails with a timeout error"); its text is about the
timeout, so it contains no handshake-specific fragment such as
"no secret provided". -/
def errContainsText (e : Err) (sub : String) : Bool :=
  match e with
  | .message s => strContainsText s sub
  | .timedOut => false

/-- A result of a `recv`/`recv_timeout` call, used as an oracle input:
`.ok (some m)` is a decoded message, `.ok none` is EOF, and `.error e` is a
read failure (for `recv_timeout`, the timeout). -/
abbrev RecvInput (α : Type) := Except Err (Option α)

/-! ## `auth.rs`: the two handshakes as trace functions -/

/-- `Authenticator::server_handshake`: generate a challenge (an oracle input
here), send `Challenge`, and accept only a valid `Authenticate(tag)`.  The
first component is the list of messages the server sent; a failing read is
propagated by `?`. -/
def Authenticator.serverHandshake (a : Authenticator) (challenge : Uuid)
    (recvd : RecvInput ClientMessage) :
    List ServerMessage × Except Err Unit :=
  ([ServerMessage.Challenge challenge],
    match recvd with
    | .error e => .error e
    | .ok (some (.Authenticate tag)) =>
      if a.validate challenge tag then .ok ()
      else .error (.message "invalid secret")
    | .ok _ => .error (.message "server requires secret, but no secret was provided"))

/-- `Authenticator::client_handshake`: wait for `Challenge(c)`, send
`Authenticate(answer(c))`; anything else fails.  The first component is the
list of messages the client sent. -/
def Authenticator.clientHandshake (a : Authenticator)
    (recvd : RecvInput ServerMessage) :
    List ClientMessage × Except Err Unit :=
  match recvd with
  | .ok (some (.Challenge c)) => ([.Authenticate (a.answer c)], .ok ())
  | .error e => ([], .error e)
  | .ok _ =>
    ([], .error (.message "expected authentication challenge, but no secret was required"))

/-- `ApiKeyAuthenticator`: holds the validation URL (the preconfigured HTTP
client with its 5 s timeout lives behind the `HttpResult` oracle). -/
structure ApiKeyAuthenticator where
  validationUrl : String
deriving DecidableEq, Repr

/-- Outcome of the HTTP POST to the validation URL: a transport error
(connection failure or the 5 s request timeout), or a response with a status
code and a body that either parses to its `valid` flag or is unparsable. -/
inductive HttpResult
  | transportError
  | response (status : Nat) (valid : Option Bool)
deriving DecidableEq, Repr

/-- `reqwest::StatusCode::is_success`: a 2xx status. -/
def isSuccessStatus (st : Nat) : Bool :=
  Nat.ble 200 st && Nat.blt st 300

/-- `ApiKeyAuthenticator::validate_api_key`: POST the key to the validation
URL (the response is the oracle applied to the key).  A 2xx response yields
the parsed body's `valid` flag (an unparsable body is an error propagated by
`?`); a non-2xx response yields `Ok(false)`; a transport error is propagated
by `?`. -/
def ApiKeyAuthenticator.validateApiKey (_a : ApiKeyAuthenticator)
    (apiKey : String) (http : String → HttpResult) : Except Err Bool :=
  match http apiKey with
  | .transportError => .error (.message "http transport error")
  | .response st valid =>
    if isSuccessStatus st then
      match valid with
      | some v => .ok v
      | none => .error (.message "unparsable validation response body")
    else .ok false

/-- `ApiKeyAuthenticator::server_handshake`: send a `Challenge` (content
unused for validation), accept only `Authenticate(api_key)`, and validate it
over HTTP with any validation error collapsed to `false`
(`unwrap_or(false)`). -/
def ApiKeyAuthenticator.serverHandshake (a : ApiKeyAuthenticator)
    (challenge : Uuid) (recvd : RecvInput ClientMessage)
    (http : String → HttpResult) :
    List ServerMessage × Except Err Unit :=
  ([ServerMessage.Challenge challenge],
    match recvd with
    | .error e => .error e
    | .ok (some (.Authenticate apiKey)) =>
      let isValid :=
        match a.validateApiKey apiKey http with
        | .ok b => b
        | .error _ => false
      if isValid then .ok () else .error (.message "invalid API key")
    | .ok _ => .error (.message "server requires API key authentication"))

/-- `ApiKeyAuthenticator::client_handshake` (an associated function taking
the key): wait for a `Challenge` (content ignored) and send the API key
verbatim as the `Authenticate` tag. -/
def ApiKeyAuthenticator.clientHandshake (apiKey : String)
    (recvd : RecvInput ServerMessage) :
    List ClientMessage × Except Err Unit :=
  match recvd with
  | .ok (some (.Challenge _)) => ([.Authenticate apiKey], .ok ())
  | .error e => ([], .error e)
  | .ok _ => ([], .error (.message "expected authentication challenge"))

/-- The specification's authorization condition for the API-key handshake,
written from the spec's words for comparison with the embedded code: the
HTTP POST for the key returned a 2xx status whose JSON body contained
`valid = true`. -/
def specApiKeyAuthorized (http : String → HttpResult) (key : String) : Prop :=
  ∃ st, http key = .response st (some true) ∧ isSuccessStatus st = true

/-! ## `client.rs`: the client -/

/-- `ClientAuthMode`: how the client authenticates. -/
inductive ClientAuthMode
  | none
  | secret (a : Authenticator)
  | apiKey (key : String)
deriving DecidableEq, Repr

/-- The auth-mode selection at the top of `Client::new`: an API key takes
priority; otherwise a secret; otherwise no authentication. -/
def clientAuthModeOf (secret : Option String) (apiKey : Option String) :
    ClientAuthMode :=
  match apiKey with
  | some key => .apiKey key
  | none =>
    match secret with
    | some s => .secret (Authenticator.new s)
    | none => .none

/-- The client-side authentication dispatch used by both `Client::new` and
`Client::handle_connection`: run the handshake matching the mode (no
messages for `ClientAuthMode.none`). -/
def authHandshake (auth : ClientAuthMode) (r : RecvInput ServerMessage) :
    List ClientMessage × Except Err Unit :=
  match auth with
  | .secret a => a.clientHandshake r
  | .apiKey key => ApiKeyAuthenticator.clientHandshake key r
  | .none => ([], .ok ())

/-- `Client` state after a successful `Client::new` (the live control
connection `conn` is an I/O handle and carries no data; it is omitted; the
source field `to` is spelled `toHost` here). -/
structure Client where
  toHost : String
  localHost : String
  localPort : Nat
  remotePort : Nat
  auth : ClientAuthMode
deriving DecidableEq, Repr

/-- `Client::new`: connect, select the auth mode, run the client handshake,
send `Hello(port)` and dispatch on the reply.  `rAuth` is the read consumed
by the handshake and `rHello` the read of the reply to `Hello`; the first
component is the list of messages the client sent on this connection. -/
def clientNew (localHost : String) (localPort : Nat) (toHost : String)
    (port : Nat) (secret : Option String) (apiKey : Option String)
    (rAuth : RecvInput ServerMessage) (rHello : RecvInput ServerMessage) :
    List ClientMessage × Except Err Client :=
  let auth := clientAuthModeOf secret apiKey
  let hs := authHandshake auth rAuth
  match hs.2 with
  | .error e => (hs.1, .error e)
  | .ok () =>
    let sends := hs.1 ++ [ClientMessage.Hello port]
    match rHello with
    | .ok (some (.Hello remotePort)) =>
      (sends, .ok ⟨toHost, localHost, localPort, remotePort, auth⟩)
    | .ok (some (.Error msg)) =>
      (sends, .error (.message ("server error: " ++ msg)))
    | .ok (some (.Challenge _)) =>
      (sends, .error (.message
        "server requires authentication, but no client secret or API key was provided"))
    | .ok (some _) => (sends, .error (.message "unexpected initial non-hello message"))
    | .ok none => (sends, .error (.message "unexpected EOF"))
    | .error e => (sends, .error e)

/-- Observable steps of `Client::handle_connection` on its claim
connection and local socket. -/
inductive Event
  | sentMsg (m : ClientMessage)
  | connectedLocal
  | wroteLocal (bytes : List Nat)
  | copiedBidirectional
deriving DecidableEq, Repr

/-- `Client::handle_connection`: dial the server again (`remoteConnectOk`),
authenticate, send `Accept(id)`, dial the local service (`localConnectOk`),
dissolve the codec (`into_parts`) whose buffered unread bytes are `readBuf`
(its write buffer is empty — every `send` flushes), write those bytes to the
local socket, then copy bidirectionally.  Connect-failure error texts omit
the peer address/port formatting. -/
def handleConnection (cl : Client) (id : Uuid)
    (remoteConnectOk : Bool) (rAuth : RecvInput ServerMessage)
    (localConnectOk : Bool) (readBuf : List Nat) :
    List Event × Except Err Unit :=
  match remoteConnectOk with
  | false => ([], .error (.message "could not connect to server"))
  | true =>
    let hs := authHandshake cl.auth rAuth
    let hsEvents := hs.1.map Event.sentMsg
    match hs.2 with
    | .error e => (hsEvents, .error e)
    | .ok () =>
      let sends := hsEvents ++ [Event.sentMsg (.Accept id)]
      match localConnectOk with
      | true =>
        (sends ++ [Event.connectedLocal, Event.wroteLocal readBuf,
          Event.copiedBidirectional], .ok ())
      | false =>
        (sends, .error (.message "could not connect to local service"))

/-- `Client::listen`: drain the control connection over a finite schedule of
read results.  Returns the ids of spawned forwarding tasks, the log lines,
and `none` while still looping, `some outcome` when the loop returned.
`handler` is the spawned task's body (`handle_connection`); its result is
only logged. -/
def listenRun (handler : Uuid → Except Err Unit) :
    List (RecvInput ServerMessage) →
      List Uuid × List String × Option (Except Err Unit)
  | [] => ([], [], none)
  | r :: rest =>
    match r with
    | .error e => ([], [], some (.error e))
    | .ok none => ([], [], some (.ok ()))
    | .ok (some m) =>
      let one := listenRun handler rest
      match m with
      | .Connection id =>
        let log :=
          match handler id with
          | .ok _ => "connection exited"
          | .error _ => "connection exited with error"
        (id :: one.1, log :: one.2.1, one.2.2)
      | .Hello _ => (one.1, "unexpected hello" :: one.2.1, one.2.2)
      | .Challenge _ => (one.1, "unexpected challenge" :: one.2.1, one.2.2)
      | .Error e => (one.1, ("server error: " ++ e) :: one.2.1, one.2.2)
      | .Heartbeat => (one.1, one.2.1, one.2.2)

/-! ## `main.rs`: the `server` subcommand of `run` -/

/-- The arguments `Server::new` and the bind setters receive (from `main.rs`;
`Server` itself lives in the missing `server.rs`, so only the configuration
it would be constructed with is recorded). -/
structure ServerConfig where
  minPort : Nat
  maxPort : Nat
  secret : Option String
  apiValidationUrl : Option String
  bindAddr : String
  bindTunnels : String
deriving DecidableEq, Repr

/-- Outcome of the `Server` branch of `run`: either the clap usage-error
exit, or a constructed and listening server. -/
inductive ServerRunOutcome
  | cliUsageError (msg : String)
  | started (cfg : ServerConfig)
deriving DecidableEq, Repr

/-- The `Command::Server` branch of `run` in `main.rs`: if the inclusive
range `min_port..=max_port` is empty (`RangeInclusive::is_empty`, i.e.
`max_port < min_port`), exit with the clap usage error "port range is
empty" before `Server::new`; otherwise construct the server (bind-tunnels
defaulting to the bind address) and listen. -/
def runServerCommand (minPort maxPort : Nat) (secret : Option String)
    (apiValidationUrl : Option String) (bindAddr : String)
    (bindTunnels : Option String) : ServerRunOutcome :=
  if maxPort < minPort then .cliUsageError "port range is empty"
  else .started
    ⟨minPort, maxPort, secret, apiValidationUrl, bindAddr,
      bindTunnels.getD bindAddr⟩

/-! ## Hex round-trip lemmas -/
theorem hexDigitVal_hexDigitChar : ∀ v < 16, hexDigitVal (hexDigitChar v) = some v := by
  decide

theorem hexDecode_hexEncodeList (bs : List Nat) (h : ∀ b ∈ bs, b < 256) :
    hexDecode (hexEncodeList bs) = some bs := by
  induction bs with
  | nil => rfl
  | cons b bs ih =>
    have hb : b < 256 := h b (List.mem_cons_self b bs)
    have hbs : ∀ x ∈ bs, x < 256 := fun x hx => h x (List.mem_cons_of_mem b hx)
    have e1 := hexDigitVal_hexDigitChar (b / 16 % 16) (Nat.mod_lt _ (by omega))
    have e2 := hexDigitVal_hexDigitChar (b % 16) (Nat.mod_lt _ (by omega))
    have hb' : 16 * (b / 16 % 16) + b % 16 = b := by omega
    have hcons : hexEncodeList (b :: bs)
        = hexDigitChar (b / 16 % 16) :: hexDigitChar (b % 16) :: hexEncodeList bs := by
      simp [hexEncodeList]
    rw [hcons, hexDecode, e1, e2, ih hbs]
    show some ((16 * (b / 16 % 16) + b % 16) :: bs) = some (b :: bs)
    rw [hb']

theorem mem_wordsToBytes_lt {ws : List Nat} {b : Nat} (h : b ∈ wordsToBytes ws) :
    b < 256 := by
  simp only [wordsToBytes, List.mem_flatMap] at h
  obtain ⟨w, -, hw⟩ := h
  simp only [List.mem_cons, List.not_mem_nil, or_false] at hw
  rcases hw with h | h | h | h <;> subst h <;> exact Nat.mod_lt _ (by omega)

theorem sha256_byte_lt {m : List Nat} {b : Nat} (h : b ∈ sha256 m) : b < 256 :=
  mem_wordsToBytes_lt h

theorem hmacSha256_byte_lt {k m : List Nat} {b : Nat} (h : b ∈ hmacSha256 k m) :
    b < 256 :=
  sha256_byte_lt h

/-- `validate` succeeds on a tag exactly when the tag hex-decodes to the HMAC
of the challenge. -/
theorem validate_eq_true_iff (a : Authenticator) (c : Uuid) (t : String) :
    a.validate c t = true ↔ hexDecode t.data = some (hmacSha256 a.key c.bytes) := by
  have hdef : a.validate c t = (match hexDecode t.data with
    | some bs => bs == hmacSha256 a.key c.bytes
    | none => false) := rfl
  rw [hdef]
  rcases h : hexDecode t.data with _ | bs
  · simp
  · simp

/-- C1 (amended): for every secret-mode `Authenticator` and challenge UUID
`c`, `validate c (answer c)` is true; and `validate c t` is false for every
tag `t` whose hex decoding is not the HMAC of `c`.  (The original claim's
"false for every string `t ≠ answer(c)`" fails: `hex::decode` is
case-insensitive, so uppercase variants of `answer c` also validate.) -/
theorem claim_C1_amended (a : Authenticator) (c : Uuid) :
    a.validate c (a.answer c) = true ∧
    ∀ t : String, hexDecode t.data ≠ some (hmacSha256 a.key c.bytes) →
      a.validate c t = false := by
  constructor
  · rw [validate_eq_true_iff]
    exact hexDecode_hexEncodeList _ fun b hb => hmacSha256_byte_lt hb
  · intro t ht
    cases hv : a.validate c t
    · rfl
    · exact absurd ((validate_eq_true_iff a c t).mp hv) ht

set_option maxRecDepth 100000 in
/-- Witness for `claim_C1_amended` at the authenticator for secret
`"secret"`, the all-zero challenge UUID, and the non-hex tag `"zz"`. -/
theorem claim_C1_amended_witness :
    (Authenticator.new "secret").validate ⟨List.replicate 16 0⟩
        ((Authenticator.new "secret").answer ⟨List.replicate 16 0⟩) = true ∧
    (Authenticator.new "secret").validate ⟨List.replicate 16 0⟩ "zz" = false :=
  ⟨(claim_C1_amended (Authenticator.new "secret") ⟨List.replicate 16 0⟩).1,
   (claim_C1_amended (Authenticator.new "secret") ⟨List.replicate 16 0⟩).2 "zz" (by decide)⟩

set_option maxRecDepth 100000 in
/-- C1 (counterexample): for the authenticator with secret `"secret"` and the
all-zero challenge UUID, the uppercase variant of the correct answer is a tag
`t ≠ answer(c)` for which `validate` nevertheless returns `true`, refuting
"validate(c, t) returns false for every tag t ≠ answer(c)". -/
theorem claim_C1_counterexample :
    (Authenticator.new "secret").validate ⟨List.replicate 16 0⟩
      "F595DD2E2C05B7BC7042DC3541159DC9EAF2DED8F547CFD51966C2EC464773B1" = true ∧
    "F595DD2E2C05B7BC7042DC3541159DC9EAF2DED8F547CFD51966C2EC464773B1" ≠
      (Authenticator.new "secret").answer ⟨List.replicate 16 0⟩ := by
  exact ⟨by decide, by decide⟩

/-! ## Claims C3, C4, C8 -/

/-- C3 (amended): in the secret-mode server handshake, the server's sent
trace is exactly the one `Challenge`; a received `Authenticate(tag)`
succeeds or fails with the error "invalid secret" according to `validate`;
any other message or EOF fails with the error "server requires secret, but
no secret was provided"; and a failing read — in particular the read
timeout — is propagated as that read's own error, not as a secret-related
message. -/
theorem claim_C3_amended (a : Authenticator) (c : Uuid) :
    (∀ r : RecvInput ClientMessage,
      (a.serverHandshake c r).1 = [ServerMessage.Challenge c]) ∧
    (∀ tag, (a.serverHandshake c (.ok (some (.Authenticate tag)))).2 =
      if a.validate c tag then .ok () else .error (.message "invalid secret")) ∧
    (∀ m : Option ClientMessage, (∀ tag, m ≠ some (.Authenticate tag)) →
      (a.serverHandshake c (.ok m)).2 =
        .error (.message "server requires secret, but no secret was provided")) ∧
    (∀ e, (a.serverHandshake c (.error e)).2 = .error e) := by
  refine ⟨fun r => rfl, fun tag => rfl, ?_, fun e => rfl⟩
  intro m hm
  match m with
  | none => rfl
  | some (.Authenticate tag) => exact absurd rfl (hm tag)
  | some (.Hello p) => rfl
  | some (.Accept i) => rfl

/-- Witness for `claim_C3_amended` at a concrete authenticator, challenge
and the EOF input. -/
theorem claim_C3_amended_witness :
    ((⟨[]⟩ : Authenticator).serverHandshake ⟨[]⟩ (.ok none)).2 =
      .error (.message "server requires secret, but no secret was provided") :=
  (claim_C3_amended ⟨[]⟩ ⟨[]⟩).2.2.1 none (by simp)

/-- C3 (counterexample): when the read of the reply times out, the secret
server handshake fails with the propagated timeout error, whose text does
not contain "no secret provided" — refuting the claim that a timeout fails
with an error containing "no secret provided". -/
theorem claim_C3_counterexample :
    ((Authenticator.new "alpha").serverHandshake ⟨List.replicate 16 0⟩
        (.error .timedOut)).2 = .error .timedOut ∧
    errContainsText Err.timedOut "no secret provided" = false :=
  ⟨rfl, rfl⟩

/-- The handshake outcome on `Authenticate(key)` is decided exactly by
whether the HTTP response is a 2xx carrying `valid = true`. -/
theorem apiServer_auth_result (a : ApiKeyAuthenticator) (c : Uuid)
    (key : String) (http : String → HttpResult) :
    (a.serverHandshake c (.ok (some (.Authenticate key))) http).2 =
      match http key with
      | .response st (some true) =>
        if isSuccessStatus st then .ok ()
        else .error (.message "invalid API key")
      | _ => .error (.message "invalid API key") := by
  have hd : (a.serverHandshake c (.ok (some (.Authenticate key))) http).2 =
      (if (match a.validateApiKey key http with
           | .ok b => b
           | .error _ => false : Bool)
       then Except.ok () else Except.error (.message "invalid API key")) := rfl
  have hv : a.validateApiKey key http =
      (match http key with
       | .transportError => Except.error (.message "http transport error")
       | .response st valid =>
         if isSuccessStatus st then
           match valid with
           | some v => Except.ok v
           | none => Except.error (.message "unparsable validation response body")
         else Except.ok false) := rfl
  rw [hd, hv]
  rcases h : http key with _ | ⟨st, v⟩
  · rfl
  · rcases v with _ | b
    · cases hs : isSuccessStatus st <;> simp [hs]
    · cases b <;> cases hs : isSuccessStatus st <;> simp [hs]

/-- C4: in the API-key server handshake, a received key is authorized iff
the HTTP POST for it returned a 2xx status whose JSON body contained
`valid = true`; every other HTTP outcome — non-2xx status, transport error,
`valid = false`, or unparsable body — makes the handshake fail with the
error "invalid API key" (the handshake function is total, so HTTP-layer
failures are denials, never crashes). -/
theorem claim_C4 (a : ApiKeyAuthenticator) (c : Uuid) (key : String)
    (http : String → HttpResult) :
    ((a.serverHandshake c (.ok (some (.Authenticate key))) http).2 = .ok () ↔
      specApiKeyAuthorized http key) ∧
    (¬ specApiKeyAuthorized http key →
      (a.serverHandshake c (.ok (some (.Authenticate key))) http).2 =
        .error (.message "invalid API key")) := by
  rw [apiServer_auth_result]
  unfold specApiKeyAuthorized
  rcases h : http key with _ | ⟨st, v⟩
  · simp
  · rcases v with _ | b
    · simp
    · rcases b
      · simp
      · rcases hs : isSuccessStatus st <;> simp [hs]

/-! ## Helper lemmas about the client -/
theorem authHandshake_sends (auth : ClientAuthMode) (r : RecvInput ServerMessage) :
    (authHandshake auth r).1 = [] ∨
      ∃ tag, (authHandshake auth r).1 = [ClientMessage.Authenticate tag] := by
  rcases auth with _ | a | key
  · exact Or.inl rfl
  all_goals
    rcases r with e | m
    · exact Or.inl rfl
    · rcases m with _ | m
      · exact Or.inl rfl
      · rcases m with p | c | i | _ | t <;>
          first
          | exact Or.inl rfl
          | exact Or.inr ⟨_, rfl⟩

theorem authHandshake_ok_sends (auth : ClientAuthMode) (hne : auth ≠ .none)
    (r : RecvInput ServerMessage)
    (hok : (authHandshake auth r).2 = .ok ()) :
    ∃ tag, (authHandshake auth r).1 = [ClientMessage.Authenticate tag] := by
  rcases auth with _ | a | key
  · exact absurd rfl hne
  all_goals
    rcases r with e | m
    · exact Except.noConfusion hok
    · rcases m with _ | m
      · exact Except.noConfusion hok
      · rcases m with p | c | i | _ | t <;>
          first
          | exact ⟨_, rfl⟩
          | exact Except.noConfusion hok

theorem listenRun_cons_error (h : Uuid → Except Err Unit) (e : Err)
    (rest : List (RecvInput ServerMessage)) :
    listenRun h (.error e :: rest) = ([], [], some (.error e)) := rfl

theorem listenRun_cons_eof (h : Uuid → Except Err Unit)
    (rest : List (RecvInput ServerMessage)) :
    listenRun h (.ok none :: rest) = ([], [], some (.ok ())) := rfl

theorem listenRun_cons_heartbeat (h : Uuid → Except Err Unit)
    (rest : List (RecvInput ServerMessage)) :
    listenRun h (.ok (some .Heartbeat) :: rest) = listenRun h rest := rfl

theorem listenRun_cons_hello (h : Uuid → Except Err Unit) (p : Nat)
    (rest : List (RecvInput ServerMessage)) :
    listenRun h (.ok (some (.Hello p)) :: rest) =
      ((listenRun h rest).1, "unexpected hello" :: (listenRun h rest).2.1,
        (listenRun h rest).2.2) := rfl

theorem listenRun_cons_challenge (h : Uuid → Except Err Unit) (c : Uuid)
    (rest : List (RecvInput ServerMessage)) :
    listenRun h (.ok (some (.Challenge c)) :: rest) =
      ((listenRun h rest).1, "unexpected challenge" :: (listenRun h rest).2.1,
        (listenRun h rest).2.2) := rfl

theorem listenRun_cons_errmsg (h : Uuid → Except Err Unit) (t : String)
    (rest : List (RecvInput ServerMessage)) :
    listenRun h (.ok (some (.Error t)) :: rest) =
      ((listenRun h rest).1, ("server error: " ++ t) :: (listenRun h rest).2.1,
        (listenRun h rest).2.2) := rfl

theorem listenRun_cons_conn (h : Uuid → Except Err Unit) (id : Uuid)
    (rest : List (RecvInput ServerMessage)) :
    listenRun h (.ok (some (.Connection id)) :: rest) =
      (id :: (listenRun h rest).1,
        (match h id with
         | .ok _ => "connection exited"
         | .error _ => "connection exited with error") :: (listenRun h rest).2.1,
        (listenRun h rest).2.2) := rfl

theorem listen_msgs_continue (h : Uuid → Except Err Unit) :
    ∀ sched : List (RecvInput ServerMessage),
      (∀ r ∈ sched, ∃ m, r = Except.ok (some m)) →
      (listenRun h sched).2.2 = none := by
  intro sched
  induction sched with
  | nil => intro _; rfl
  | cons r rest ih =>
    intro hall
    obtain ⟨m, rfl⟩ := hall r (List.mem_cons_self r rest)
    have ih2 := ih fun x hx => hall x (List.mem_cons_of_mem _ hx)
    cases m
    · rw [listenRun_cons_hello]; exact ih2
    · rw [listenRun_cons_challenge]; exact ih2
    · rw [listenRun_cons_conn]; exact ih2
    · rw [listenRun_cons_heartbeat]; exact ih2
    · rw [listenRun_cons_errmsg]; exact ih2

theorem listen_ok_means_eof (h : Uuid → Except Err Unit) :
    ∀ sched : List (RecvInput ServerMessage),
      (listenRun h sched).2.2 = some (.ok ()) →
      Except.ok none ∈ sched := by
  intro sched
  induction sched with
  | nil => intro hx; exact absurd hx (by simp [listenRun])
  | cons r rest ih =>
    intro hx
    rcases r with e | m
    · rw [listenRun_cons_error] at hx
      simp at hx
    · rcases m with _ | m
      · exact List.mem_cons_self _ _
      · refine List.mem_cons_of_mem _ (ih ?_)
        cases m
        · rwa [listenRun_cons_hello] at hx
        · rwa [listenRun_cons_challenge] at hx
        · rwa [listenRun_cons_conn] at hx
        · rwa [listenRun_cons_heartbeat] at hx
        · rwa [listenRun_cons_errmsg] at hx

theorem listen_handler_independent (h1 h2 : Uuid → Except Err Unit) :
    ∀ sched : List (RecvInput ServerMessage),
      (listenRun h1 sched).1 = (listenRun h2 sched).1 ∧
      (listenRun h1 sched).2.2 = (listenRun h2 sched).2.2 := by
  intro sched
  induction sched with
  | nil => exact ⟨rfl, rfl⟩
  | cons r rest ih =>
    rcases r with e | m
    · exact ⟨rfl, rfl⟩
    · rcases m with _ | m
      · exact ⟨rfl, rfl⟩
      · cases m
        · rw [listenRun_cons_hello, listenRun_cons_hello]
          exact ⟨ih.1, ih.2⟩
        · rw [listenRun_cons_challenge, listenRun_cons_challenge]
          exact ⟨ih.1, ih.2⟩
        · rw [listenRun_cons_conn, listenRun_cons_conn]
          exact ⟨by rw [ih.1], ih.2⟩
        · rw [listenRun_cons_heartbeat, listenRun_cons_heartbeat]
          exact ih
        · rw [listenRun_cons_errmsg, listenRun_cons_errmsg]
          exact ⟨ih.1, ih.2⟩

/-- C7: the client's listen loop never returns upon receiving a message (a
schedule of only messages leaves it still looping); it returns `Ok` only if
the schedule reaches EOF; the spawned ids and the loop outcome are
independent of the results of the spawned forwarding tasks (a failed
forward does not make `listen` return); a `Heartbeat` has no effect at all;
and a `Connection(id)` spawns a task for `id` and continues. -/
theorem claim_C7 (handler : Uuid → Except Err Unit)
    (sched : List (RecvInput ServerMessage)) :
    ((∀ r ∈ sched, ∃ m, r = Except.ok (some m)) →
      (listenRun handler sched).2.2 = none) ∧
    ((listenRun handler sched).2.2 = some (.ok ()) →
      Except.ok none ∈ sched) ∧
    (∀ handler2 : Uuid → Except Err Unit,
      (listenRun handler sched).1 = (listenRun handler2 sched).1 ∧
      (listenRun handler sched).2.2 = (listenRun handler2 sched).2.2) ∧
    (∀ rest, listenRun handler (.ok (some ServerMessage.Heartbeat) :: rest) =
      listenRun handler rest) ∧
    (∀ id rest,
      (listenRun handler (.ok (some (ServerMessage.Connection id)) :: rest)).1 =
        id :: (listenRun handler rest).1 ∧
      (listenRun handler (.ok (some (ServerMessage.Connection id)) :: rest)).2.2 =
        (listenRun handler rest).2.2) :=
  ⟨listen_msgs_continue handler sched,
   listen_ok_means_eof handler sched,
   fun h2 => listen_handler_independent handler h2 sched,
   fun rest => listenRun_cons_heartbeat handler rest,
   fun id rest => ⟨by rw [listenRun_cons_conn], by rw [listenRun_cons_conn]⟩⟩

/-- Witness for `claim_C7`: a schedule holding one `Heartbeat` leaves the
loop still running. -/
theorem claim_C7_witness :
    (listenRun (fun _ => Except.ok ())
      [Except.ok (some ServerMessage.Heartbeat)]).2.2 = none :=
  (claim_C7 (fun _ => Except.ok ()) [Except.ok (some ServerMessage.Heartbeat)]).1
    (by
      intro r hr
      rw [List.mem_singleton] at hr
      exact ⟨ServerMessage.Heartbeat, hr⟩)

/-- C10: starting the server subcommand with `min_port > max_port` (an empty
inclusive range) exits with the clap usage error "port range is empty"
before any `Server` is constructed, so no control listener is created. -/
theorem claim_C10 (minPort maxPort : Nat) (secret url : Option String)
    (bindAddr : String) (bindTunnels : Option String)
    (h : maxPort < minPort) :
    runServerCommand minPort maxPort secret url bindAddr bindTunnels =
      .cliUsageError "port range is empty" ∧
    ∀ cfg, runServerCommand minPort maxPort secret url bindAddr bindTunnels ≠
      .started cfg := by
  refine ⟨by simp [runServerCommand, h], fun cfg => ?_⟩
  simp [runServerCommand, h]

/-- Witness for `claim_C10` at the concrete empty range `1..=0`. -/
theorem claim_C10_witness :
    runServerCommand 1 0 none none "0.0.0.0" none =
      .cliUsageError "port range is empty" :=
  (claim_C10 1 0 none none "0.0.0.0" none (by decide)).1

/-- C8: both authenticators present the same wire shape.  The API-key server
handshake, like the secret one, sends exactly one `Challenge` as its first
message; the challenge content does not affect the API-key handshake's
outcome; and the API-key client handshake waits for a `Challenge`, ignores
its content, sends the API key string verbatim as the `Authenticate` tag,
and fails with "expected authentication challenge" when the first message
is anything other than a `Challenge`. -/
theorem claim_C8 (key : String) :
    (∀ (a : ApiKeyAuthenticator) (c : Uuid) (r : RecvInput ClientMessage)
        (http : String → HttpResult),
      (a.serverHandshake c r http).1 = [ServerMessage.Challenge c]) ∧
    (∀ (sa : Authenticator) (c : Uuid) (r : RecvInput ClientMessage),
      (sa.serverHandshake c r).1 = [ServerMessage.Challenge c]) ∧
    (∀ (a : ApiKeyAuthenticator) (c1 c2 : Uuid) (r : RecvInput ClientMessage)
        (http : String → HttpResult),
      (a.serverHandshake c1 r http).2 = (a.serverHandshake c2 r http).2) ∧
    (∀ c : Uuid,
      ApiKeyAuthenticator.clientHandshake key (.ok (some (.Challenge c))) =
        ([ClientMessage.Authenticate key], .ok ())) ∧
    (∀ m : Option ServerMessage, (∀ c, m ≠ some (.Challenge c)) →
      (ApiKeyAuthenticator.clientHandshake key (.ok m)).2 =
        .error (.message "expected authentication challenge")) := by
  refine ⟨fun a c r http => rfl, fun sa c r => rfl, fun a c1 c2 r http => rfl,
    fun c => rfl, ?_⟩
  intro m hm
  match m with
  | none => rfl
  | some (.Hello p) => rfl
  | some (.Challenge c) => exact absurd rfl (hm c)
  | some (.Connection i) => rfl
  | some .Heartbeat => rfl
  | some (.Error t) => rfl

/-- Witness for `claim_C8`: a non-`Challenge` first message fails the
API-key client handshake. -/
theorem claim_C8_witness :
    (ApiKeyAuthenticator.clientHandshake "k" (.ok (some .Heartbeat))).2 =
      .error (.message "expected authentication challenge") :=
  (claim_C8 "k").2.2.2.2 (some .Heartbeat) (by simp)

/-! ## Reduction lemmas for `clientNew` and `handleConnection` -/
theorem clientNew_hs_error (lh : String) (lp : Nat) (th : String) (port : Nat)
    (secret apiKey : Option String) (rA rH : RecvInput ServerMessage) (e : Err)
    (herr : (authHandshake (clientAuthModeOf secret apiKey) rA).2 = .error e) :
    clientNew lh lp th port secret apiKey rA rH =
      ((authHandshake (clientAuthModeOf secret apiKey) rA).1, .error e) := by
  simp only [clientNew]
  rw [herr]

theorem clientNew_after_hs (lh : String) (lp : Nat) (th : String) (port : Nat)
    (secret apiKey : Option String) (rA : RecvInput ServerMessage)
    (hok : (authHandshake (clientAuthModeOf secret apiKey) rA).2 = .ok ())
    (rH : RecvInput ServerMessage) :
    clientNew lh lp th port secret apiKey rA rH =
      ((authHandshake (clientAuthModeOf secret apiKey) rA).1 ++
          [ClientMessage.Hello port],
        match rH with
        | .ok (some (.Hello rp)) =>
          .ok ⟨th, lh, lp, rp, clientAuthModeOf secret apiKey⟩
        | .ok (some (.Error msg)) =>
          .error (.message ("server error: " ++ msg))
        | .ok (some (.Challenge _)) =>
          .error (.message
            "server requires authentication, but no client secret or API key was provided")
        | .ok (some _) => .error (.message "unexpected initial non-hello message")
        | .ok none => .error (.message "unexpected EOF")
        | .error e => .error e) := by
  simp only [clientNew]
  rw [hok]
  rcases rH with e | m
  · rfl
  · rcases m with _ | m
    · rfl
    · cases m <;> rfl

/-- C6: after `Hello(port)` is sent (the auth handshake having succeeded),
`Client::new` dispatches on the reply exactly as specified: `Hello(assigned)`
succeeds with `remote_port = assigned` (the value `remote_port()` returns);
`Error(msg)` fails with "server error: " followed by `msg`; `Challenge(_)`
fails with the server-requires-authentication error; `Heartbeat`,
`Connection(_)` fail with "unexpected initial non-hello message"; EOF fails
with "unexpected EOF". -/
theorem claim_C6 (lh : String) (lp : Nat) (th : String) (port : Nat)
    (secret apiKey : Option String) (rA : RecvInput ServerMessage)
    (hok : (authHandshake (clientAuthModeOf secret apiKey) rA).2 = .ok ()) :
    (∀ assigned,
      (clientNew lh lp th port secret apiKey rA
          (.ok (some (.Hello assigned)))).2 =
        .ok ⟨th, lh, lp, assigned, clientAuthModeOf secret apiKey⟩ ∧
      ∀ cl, (clientNew lh lp th port secret apiKey rA
          (.ok (some (.Hello assigned)))).2 = .ok cl → cl.remotePort = assigned) ∧
    (∀ msg, (clientNew lh lp th port secret apiKey rA
        (.ok (some (.Error msg)))).2 =
      .error (.message ("server error: " ++ msg))) ∧
    (∀ c, (clientNew lh lp th port secret apiKey rA
        (.ok (some (.Challenge c)))).2 =
      .error (.message
        "server requires authentication, but no client secret or API key was provided")) ∧
    ((clientNew lh lp th port secret apiKey rA (.ok (some .Heartbeat))).2 =
      .error (.message "unexpected initial non-hello message")) ∧
    (∀ id, (clientNew lh lp th port secret apiKey rA
        (.ok (some (.Connection id)))).2 =
      .error (.message "unexpected initial non-hello message")) ∧
    ((clientNew lh lp th port secret apiKey rA (.ok none)).2 =
      .error (.message "unexpected EOF")) := by
  refine ⟨fun assigned => ⟨?_, ?_⟩, fun msg => ?_, fun c => ?_, ?_, fun id => ?_, ?_⟩
  · rw [clientNew_after_hs lh lp th port secret apiKey rA hok]
  · intro cl hcl
    rw [clientNew_after_hs lh lp th port secret apiKey rA hok] at hcl
    simp only [Except.ok.injEq] at hcl
    rw [← hcl]
  · rw [clientNew_after_hs lh lp th port secret apiKey rA hok]
  · rw [clientNew_after_hs lh lp th port secret apiKey rA hok]
  · rw [clientNew_after_hs lh lp th port secret apiKey rA hok]
  · rw [clientNew_after_hs lh lp th port secret apiKey rA hok]
  · rw [clientNew_after_hs lh lp th port secret apiKey rA hok]

/-- Witness for `claim_C6`: with no authentication configured the handshake
trivially succeeds, and an `Error` reply fails with the server's message. -/
theorem claim_C6_witness :
    (clientNew "localhost" 8000 "example.com" 0 none none (.ok none)
        (.ok (some (.Error "oops")))).2 =
      .error (.message "server error: oops") :=
  (claim_C6 "localhost" 8000 "example.com" 0 none none (.ok none) rfl).2.1 "oops"

theorem handleConnection_noRemote (cl : Client) (id : Uuid)
    (rA : RecvInput ServerMessage) (lc : Bool) (buf : List Nat) :
    handleConnection cl id false rA lc buf =
      ([], .error (.message "could not connect to server")) := rfl

theorem handleConnection_hs_error (cl : Client) (id : Uuid)
    (rA : RecvInput ServerMessage) (lc : Bool) (buf : List Nat) (e : Err)
    (herr : (authHandshake cl.auth rA).2 = .error e) :
    handleConnection cl id true rA lc buf =
      ((authHandshake cl.auth rA).1.map Event.sentMsg, .error e) := by
  simp only [handleConnection]
  rw [herr]

theorem handleConnection_ok_noLocal (cl : Client) (id : Uuid)
    (rA : RecvInput ServerMessage) (buf : List Nat)
    (hok : (authHandshake cl.auth rA).2 = .ok ()) :
    handleConnection cl id true rA false buf =
      ((authHandshake cl.auth rA).1.map Event.sentMsg ++
          [Event.sentMsg (.Accept id)],
        .error (.message "could not connect to local service")) := by
  simp only [handleConnection]
  rw [hok]

theorem handleConnection_ok_local (cl : Client) (id : Uuid)
    (rA : RecvInput ServerMessage) (buf : List Nat)
    (hok : (authHandshake cl.auth rA).2 = .ok ()) :
    handleConnection cl id true rA true buf =
      ((authHandshake cl.auth rA).1.map Event.sentMsg ++
          [Event.sentMsg (.Accept id), Event.connectedLocal,
           Event.wroteLocal buf, Event.copiedBidirectional],
        .ok ()) := by
  simp only [handleConnection]
  rw [hok]
  simp

/-- Witness for `claim_C4`: a transport error denies with "invalid API key". -/
theorem claim_C4_witness :
    ((⟨"https://api.example.com/validate"⟩ : ApiKeyAuthenticator).serverHandshake
        ⟨[]⟩ (.ok (some (.Authenticate "k"))) (fun _ => .transportError)).2 =
      .error (.message "invalid API key") :=
  (claim_C4 ⟨"https://api.example.com/validate"⟩ ⟨[]⟩ "k"
      (fun _ => .transportError)).2
    (by rintro ⟨st, h, -⟩; exact HttpResult.noConfusion h)

/-- Sends of the API-key client handshake: nothing, or the key verbatim. -/
theorem apiKey_handshake_sends (key : String) (rA : RecvInput ServerMessage) :
    (authHandshake (.apiKey key) rA).1 = [] ∨
      (authHandshake (.apiKey key) rA).1 = [ClientMessage.Authenticate key] := by
  rcases rA with e | m
  · exact Or.inl rfl
  · rcases m with _ | m
    · exact Or.inl rfl
    · cases m <;> first | exact Or.inl rfl | exact Or.inr rfl

/-- C2: with a secret or an API key configured, the selected auth mode is
never `none`; the client a successful `Client::new` returns carries that
mode; and on each connection — the control connection of `Client::new` and
every claim connection of `handle_connection` — any `Hello` or `Accept` the
client sends is preceded by an `Authenticate` it sent earlier on the same
connection. -/
theorem claim_C2 (secret apiKey : Option String)
    (hcfg : ¬(secret = none ∧ apiKey = none)) :
    clientAuthModeOf secret apiKey ≠ .none ∧
    (∀ lh lp th port rA rH cl,
      (clientNew lh lp th port secret apiKey rA rH).2 = .ok cl →
        cl.auth = clientAuthModeOf secret apiKey) ∧
    (∀ lh lp th port rA rH (i : Nat) (p : Nat),
      (clientNew lh lp th port secret apiKey rA rH).1[i]? =
          some (ClientMessage.Hello p) →
      ∃ (j : Nat) (tag : String), j < i ∧
        (clientNew lh lp th port secret apiKey rA rH).1[j]? =
          some (ClientMessage.Authenticate tag)) ∧
    (∀ (cl : Client), cl.auth ≠ .none →
      ∀ id rc rA lc buf (i : Nat) id2,
        (handleConnection cl id rc rA lc buf).1[i]? =
            some (Event.sentMsg (ClientMessage.Accept id2)) →
        ∃ (j : Nat) (tag : String), j < i ∧
          (handleConnection cl id rc rA lc buf).1[j]? =
            some (Event.sentMsg (ClientMessage.Authenticate tag))) := by
  have h1 : clientAuthModeOf secret apiKey ≠ .none := by
    rcases apiKey with _ | key
    · rcases secret with _ | sv
      · exact absurd ⟨rfl, rfl⟩ hcfg
      · simp [clientAuthModeOf]
    · simp [clientAuthModeOf]
  refine ⟨h1, ?_, ?_, ?_⟩
  · intro lh lp th port rA rH cl hcl
    rcases h2 : (authHandshake (clientAuthModeOf secret apiKey) rA).2 with e | u
    · rw [clientNew_hs_error lh lp th port secret apiKey rA rH e h2] at hcl
      simp at hcl
    · cases u
      rw [clientNew_after_hs lh lp th port secret apiKey rA h2 rH] at hcl
      rcases rH with e | m
      · simp at hcl
      · rcases m with _ | m
        · simp at hcl
        · cases m
          case Hello rp =>
            simp only [Except.ok.injEq] at hcl
            rw [← hcl]
          all_goals simp at hcl
  · intro lh lp th port rA rH i p hi
    rcases h2 : (authHandshake (clientAuthModeOf secret apiKey) rA).2 with e | u
    · rw [clientNew_hs_error lh lp th port secret apiKey rA rH e h2] at hi
      rcases authHandshake_sends (clientAuthModeOf secret apiKey) rA with hs0 | ⟨tag, hs1⟩
      · rw [hs0] at hi; simp at hi
      · rw [hs1] at hi
        rcases i with _ | k
        · simp at hi
        · simp at hi
    · cases u
      obtain ⟨tag, hs1⟩ := authHandshake_ok_sends _ h1 rA h2
      rw [clientNew_after_hs lh lp th port secret apiKey rA h2 rH] at hi ⊢
      rw [hs1] at hi ⊢
      rcases i with _ | k
      · simp at hi
      · exact ⟨0, tag, Nat.succ_pos k, by simp⟩
  · intro cl hne id rc rA lc buf i id2 hi
    cases rc
    · rw [handleConnection_noRemote] at hi; simp at hi
    · rcases h2 : (authHandshake cl.auth rA).2 with e | u
      · rw [handleConnection_hs_error cl id rA lc buf e h2] at hi
        rcases authHandshake_sends cl.auth rA with hs0 | ⟨tag, hs1⟩
        · rw [hs0] at hi; simp at hi
        · rw [hs1] at hi
          rcases i with _ | k
          · simp at hi
          · simp at hi
      · cases u
        obtain ⟨tag, hs1⟩ := authHandshake_ok_sends cl.auth hne rA h2
        cases lc
        · rw [handleConnection_ok_noLocal cl id rA buf h2] at hi ⊢
          rw [hs1] at hi ⊢
          rcases i with _ | k
          · simp at hi
          · exact ⟨0, tag, Nat.succ_pos k, by simp⟩
        · rw [handleConnection_ok_local cl id rA buf h2] at hi ⊢
          rw [hs1] at hi ⊢
          rcases i with _ | k
          · simp at hi
          · exact ⟨0, tag, Nat.succ_pos k, by simp⟩

/-- Witness for `claim_C2`: in API-key mode the `Hello` at position 1 of the
`Client::new` trace is preceded by the `Authenticate` at position 0. -/
theorem claim_C2_witness :
    ∃ j tag, j < 1 ∧
      (clientNew "localhost" 8000 "example.com" 7000 none (some "k")
          (.ok (some (.Challenge ⟨[]⟩)))
          (.ok (some (.Hello 7000)))).1[j]? =
        some (ClientMessage.Authenticate tag) :=
  (claim_C2 none (some "k") (by simp)).2.2.1 "localhost" 8000 "example.com" 7000
    (.ok (some (.Challenge ⟨[]⟩))) (.ok (some (.Hello 7000))) 1 7000 (by decide)

/-- C5: in the per-connection forward, whenever the bidirectional copy
starts, the `Accept(id)` send, the write of the codec's buffered unread
bytes to the local socket, and the start of the copy occur in that order;
and every local-buffer write writes exactly the whole buffered prefix (no
byte lost, in order). -/
theorem claim_C5 (cl : Client) (id : Uuid) (rc : Bool)
    (rA : RecvInput ServerMessage) (lc : Bool) (buf : List Nat) :
    (Event.copiedBidirectional ∈ (handleConnection cl id rc rA lc buf).1 →
      ∃ (i j k : Nat), i < j ∧ j < k ∧
        (handleConnection cl id rc rA lc buf).1[i]? =
          some (Event.sentMsg (.Accept id)) ∧
        (handleConnection cl id rc rA lc buf).1[j]? =
          some (Event.wroteLocal buf) ∧
        (handleConnection cl id rc rA lc buf).1[k]? =
          some Event.copiedBidirectional) ∧
    (∀ bs, Event.wroteLocal bs ∈ (handleConnection cl id rc rA lc buf).1 →
      bs = buf) := by
  cases rc
  · rw [handleConnection_noRemote]
    constructor
    · intro hmem; simp at hmem
    · intro bs hmem; simp at hmem
  · rcases h2 : (authHandshake cl.auth rA).2 with e | u
    · rw [handleConnection_hs_error cl id rA lc buf e h2]
      constructor
      · intro hmem; simp [List.mem_map] at hmem
      · intro bs hmem; simp [List.mem_map] at hmem
    · cases u
      cases lc
      · rw [handleConnection_ok_noLocal cl id rA buf h2]
        constructor
        · intro hmem
          simp [List.mem_append, List.mem_map] at hmem
        · intro bs hmem
          simp [List.mem_append, List.mem_map] at hmem
      · rw [handleConnection_ok_local cl id rA buf h2]
        rcases authHandshake_sends cl.auth rA with hs0 | ⟨tag, hs1⟩
        · rw [hs0]
          constructor
          · intro _
            exact ⟨0, 2, 3, by omega, by omega, by simp, by simp, by simp⟩
          · intro bs hmem
            simp at hmem
            exact hmem
        · rw [hs1]
          constructor
          · intro _
            exact ⟨1, 3, 4, by omega, by omega, by simp, by simp, by simp⟩
          · intro bs hmem
            simp at hmem
            exact hmem

/-- Witness for `claim_C5` at a concrete unauthenticated client with a
one-byte buffered prefix. -/
theorem claim_C5_witness :
    ∃ (i j k : Nat), i < j ∧ j < k ∧
      (handleConnection ⟨"example.com", "localhost", 8000, 35000, .none⟩
          ⟨[]⟩ true (.ok none) true [7]).1[i]? =
        some (Event.sentMsg (.Accept ⟨[]⟩)) ∧
      (handleConnection ⟨"example.com", "localhost", 8000, 35000, .none⟩
          ⟨[]⟩ true (.ok none) true [7]).1[j]? =
        some (Event.wroteLocal [7]) ∧
      (handleConnection ⟨"example.com", "localhost", 8000, 35000, .none⟩
          ⟨[]⟩ true (.ok none) true [7]).1[k]? =
        some Event.copiedBidirectional :=
  (claim_C5 ⟨"example.com", "localhost", 8000, 35000, .none⟩ ⟨[]⟩ true
      (.ok none) true [7]).1 (by decide)

/-- C9: when both a secret and an API key are supplied, the client silently
selects API-key mode; the whole behaviour of `Client::new` is independent of
the secret; and every `Authenticate` tag sent — by `Client::new` on the
control connection and by `handle_connection` on each claim connection —
is the API key itself. -/
theorem claim_C9 (s1 key : String) :
    clientAuthModeOf (some s1) (some key) = .apiKey key ∧
    (∀ s2 lh lp th port rA rH,
      clientNew lh lp th port (some s1) (some key) rA rH =
        clientNew lh lp th port (some s2) (some key) rA rH) ∧
    (∀ lh lp th port rA rH tag,
      ClientMessage.Authenticate tag ∈
          (clientNew lh lp th port (some s1) (some key) rA rH).1 →
      tag = key) ∧
    (∀ (cl : Client), cl.auth = .apiKey key →
      ∀ id rc rA lc buf tag,
        Event.sentMsg (ClientMessage.Authenticate tag) ∈
            (handleConnection cl id rc rA lc buf).1 →
        tag = key) := by
  have hmode : clientAuthModeOf (some s1) (some key) = .apiKey key := rfl
  refine ⟨hmode, fun s2 lh lp th port rA rH => rfl, ?_, ?_⟩
  · intro lh lp th port rA rH tag hmem
    rcases h2 : (authHandshake (clientAuthModeOf (some s1) (some key)) rA).2
      with e | u
    · rw [clientNew_hs_error lh lp th port (some s1) (some key) rA rH e h2]
        at hmem
      rw [hmode] at hmem
      rcases apiKey_handshake_sends key rA with hs0 | hs1
      · rw [hs0] at hmem; simp at hmem
      · rw [hs1] at hmem
        simp at hmem
        exact hmem
    · cases u
      rw [clientNew_after_hs lh lp th port (some s1) (some key) rA h2 rH]
        at hmem
      rw [hmode] at hmem
      rcases apiKey_handshake_sends key rA with hs0 | hs1
      · rw [hs0] at hmem; simp at hmem
      · rw [hs1] at hmem
        simp at hmem
        exact hmem
  · intro cl hauth id rc rA lc buf tag hmem
    cases rc
    · rw [handleConnection_noRemote] at hmem; simp at hmem
    · rcases h2 : (authHandshake cl.auth rA).2 with e | u
      · rw [handleConnection_hs_error cl id rA lc buf e h2] at hmem
        rw [hauth] at hmem
        rcases apiKey_handshake_sends key rA with hs0 | hs1
        · rw [hs0] at hmem; simp at hmem
        · rw [hs1] at hmem
          simp at hmem
          exact hmem
      · cases u
        cases lc
        · rw [handleConnection_ok_noLocal cl id rA buf h2] at hmem
          rw [hauth] at hmem
          rcases apiKey_handshake_sends key rA with hs0 | hs1
          · rw [hs0] at hmem; simp at hmem
          · rw [hs1] at hmem
            simp at hmem
            exact hmem
        · rw [handleConnection_ok_local cl id rA buf h2] at hmem
          rw [hauth] at hmem
          rcases apiKey_handshake_sends key rA with hs0 | hs1
          · rw [hs0] at hmem; simp at hmem
          · rw [hs1] at hmem
            simp at hmem
            exact hmem

/-- Witness for `claim_C9`: with both `"s"` and `"k"` supplied, the tag sent
on a claim connection is the API key `"k"`. -/
theorem claim_C9_witness :
    "k" = "k" ∧ clientAuthModeOf (some "s") (some "k") = .apiKey "k" :=
  ⟨(claim_C9 "s" "k").2.2.2 ⟨"example.com", "localhost", 8000, 35000, .apiKey "k"⟩
      rfl ⟨[]⟩ true (.ok (some (.Challenge ⟨[]⟩))) true [] "k" (by decide),
    (claim_C9 "s" "k").1⟩

end Bore
